import Mathlib

/-!
# Contact registry of `main.go`

A shallow embedding of the in-memory contact registry served by `main.go` and
of its five request handlers, followed by theorems about them.

Modelling conventions.

* The package-level slice `contacts` is threaded explicitly: a handler that
  assigns to `contacts` returns the new sequence together with its response, a
  handler that only reads it returns its response alone.
* A Go `string` is a Lean `String` (a sequence of Unicode scalar values). Every
  string decoded from a JSON body and every id the registry ever stores is valid
  UTF-8, and on such strings Go's `==` is equality of the scalar sequences. A
  path id that is not valid UTF-8 equals no stored id and is served like any
  other id that no contact carries.
* `c.BindJSON(&x)` is the result of the binding: `none` when it returns an
  error, `some x` when it fills `x`. The JSON decoder itself is library code.
* `c.JSON(status, value)` is the pair of the status and the value written.
* `len(contacts) + 1 + '0'` is an `int`; `rune(...)` keeps its low 32 bits as a
  signed number; `string(rune)` is the UTF-8 text of that code point, and
  `"�"` when the number is not a Unicode scalar value.
-/

namespace Iwa5

/-! ## Data model -/

/-- The struct `Contact` of `main.go`. -/
structure Contact where
  ID : String
  Name : String
  Phone : String
  Email : String
deriving DecidableEq, Repr

/-- The value handed to `c.JSON`: the whole slice, one contact, `gin.H` with the
single key `"error"`, or `gin.H` with the single key `"message"`. -/
inductive Body where
  | contactList (cs : List Contact)
  | contact (c : Contact)
  | error (msg : String)
  | message (msg : String)
deriving DecidableEq, Repr

/-- A response written with `c.JSON(status, body)`. -/
structure Response where
  status : Nat
  body : Body
deriving DecidableEq, Repr

/-- Constant `http.StatusOK`. -/
def StatusOK : Nat := 200

/-- Constant `http.StatusCreated`. -/
def StatusCreated : Nat := 201

/-- Constant `http.StatusBadRequest`. -/
def StatusBadRequest : Nat := 400

/-- Constant `http.StatusNotFound`. -/
def StatusNotFound : Nat := 404

/-- The initial value of the package-level variable `contacts`. -/
def contacts : List Contact :=
  [ { ID := "1", Name := "Иван Иванов", Phone := "+79161234567", Email := "ivan@mail.ru" },
    { ID := "2", Name := "Петр Петров", Phone := "+79169876543", Email := "petr@mail.ru" } ]

/-! ## Conversions used by the id generator -/

/-- Go conversion `rune(x)` of an `int`: the low 32 bits of `x`, read as a signed
32-bit number. -/
def runeOfInt (x : Int) : Int :=
  (x + 2147483648) % 4294967296 - 2147483648

/-- Whether `r` is a Unicode scalar value: within `0 .. 0x10FFFF` and not a
surrogate (`0xD800 .. 0xDFFF`). -/
def validRune (r : Int) : Bool :=
  (decide (0 ≤ r) && decide (r < 0xD800)) || (decide (0xDFFF < r) && decide (r ≤ 0x10FFFF))

/-- Constant `utf8.RuneError`, the replacement character U+FFFD. -/
def runeError : Char := Char.ofNat 0xFFFD

/-- Go conversion `string(r)` of a rune: the one-character string of the code
point `r`, or of U+FFFD when `r` is not a Unicode scalar value. -/
def stringOfRune (r : Int) : String :=
  if validRune r then String.singleton (Char.ofNat r.toNat) else String.singleton runeError

/-! ## The range loop shared by the id-based handlers -/

/-- The loop `for i, contact := range contacts { if contact.ID == id { ... return } }`
run from index `i` over the remaining elements: the index and the element at
which the body is entered, or `none` when the loop runs to its end. -/
def scanFrom (id : String) (i : Nat) : List Contact → Option (Nat × Contact)
  | [] => none
  | contact :: rest =>
    if contact.ID = id then some (i, contact) else scanFrom id (i + 1) rest

/-! ## Handlers -/

/-- Handler `getContacts`. -/
def getContacts (cs : List Contact) : Response :=
  ⟨StatusOK, .contactList cs⟩

/-- Handler `getContact`. -/
def getContact (cs : List Contact) (id : String) : Response :=
  match scanFrom id 0 cs with
  | some (_, contact) => ⟨StatusOK, .contact contact⟩
  | none => ⟨StatusNotFound, .error "Контакт не найден"⟩

/-- Handler `createContact`; `body` is the result of `c.BindJSON(&newContact)`. -/
def createContact (cs : List Contact) (body : Option Contact) : List Contact × Response :=
  match body with
  | none => (cs, ⟨StatusBadRequest, .error "Неверные данные"⟩)
  | some newContact =>
    let newContact : Contact :=
      { newContact with ID := stringOfRune (runeOfInt ((cs.length : Int) + 1 + ('0'.toNat : Int))) }
    (cs ++ [newContact], ⟨StatusCreated, .contact newContact⟩)

/-- Handler `updateContact`; `body` is the result of `c.BindJSON(&updatedContact)`. -/
def updateContact (cs : List Contact) (id : String) (body : Option Contact) :
    List Contact × Response :=
  match body with
  | none => (cs, ⟨StatusBadRequest, .error "Неверные данные"⟩)
  | some updatedContact =>
    match scanFrom id 0 cs with
    | some (i, _) =>
      let updatedContact : Contact := { updatedContact with ID := id }
      (cs.set i updatedContact, ⟨StatusOK, .contact updatedContact⟩)
    | none => (cs, ⟨StatusNotFound, .error "Контакт не найден"⟩)

/-- Handler `deleteContact`: `append(contacts[:i], contacts[i+1:]...)` at the
first matching index. -/
def deleteContact (cs : List Contact) (id : String) : List Contact × Response :=
  match scanFrom id 0 cs with
  | some (i, _) => (cs.take i ++ cs.drop (i + 1), ⟨StatusOK, .message "Контакт удален"⟩)
  | none => (cs, ⟨StatusNotFound, .error "Контакт не найден"⟩)

/-! ## Requests and runs -/

/-- One request to a route registered in `main`, with its path id and the result
of binding its body where the handler reads them. -/
inductive Op where
  | list
  | get (id : String)
  | create (body : Option Contact)
  | update (id : String) (body : Option Contact)
  | delete (id : String)
deriving DecidableEq, Repr

/-- The route table of `main`: the registry after the request and the response. -/
def step (cs : List Contact) : Op → List Contact × Response
  | .list => (cs, getContacts cs)
  | .get id => (cs, getContact cs id)
  | .create body => createContact cs body
  | .update id body => updateContact cs id body
  | .delete id => deleteContact cs id

/-- The registry after serving the requests `ops` one after another. -/
def run (cs : List Contact) : List Op → List Contact
  | [] => cs
  | op :: ops => run (step cs op).1 ops

/-- The responses to the requests `ops` served one after another. -/
def responses (cs : List Contact) : List Op → List Response
  | [] => []
  | op :: ops => (step cs op).2 :: responses (step cs op).1 ops

/-- A registry state is reachable when some finite sequence of requests leads to
it from the seed. -/
def Reachable (cs : List Contact) : Prop :=
  ∃ ops : List Op, run contacts ops = cs

/-! ## The range loop: where it stops -/

theorem scanFrom_eq_none (id : String) (i : Nat) (cs : List Contact) :
    scanFrom id i cs = none ↔ ∀ c ∈ cs, c.ID ≠ id := by
  induction cs generalizing i with
  | nil => simp [scanFrom]
  | cons c rest ih => by_cases h : c.ID = id <;> simp [scanFrom, h, ih]

theorem scanFrom_split (id : String) (i : Nat) (pre : List Contact) (c : Contact)
    (post : List Contact) (hpre : ∀ x ∈ pre, x.ID ≠ id) (hc : c.ID = id) :
    scanFrom id i (pre ++ c :: post) = some (i + pre.length, c) := by
  induction pre generalizing i with
  | nil => simp [scanFrom, hc]
  | cons x pre ih =>
    have hx : x.ID ≠ id := hpre x (by simp)
    have hrest : ∀ y ∈ pre, y.ID ≠ id := fun y hy => hpre y (by simp [hy])
    have hidx : i + 1 + pre.length = i + (pre.length + 1) := by omega
    have hstep : scanFrom id i (x :: (pre ++ c :: post))
        = scanFrom id (i + 1) (pre ++ c :: post) := by
      simp [scanFrom, hx]
    rw [List.cons_append, hstep, ih (i + 1) hrest, hidx, List.length_cons]

theorem exists_split (id : String) (cs : List Contact) (h : ∃ c ∈ cs, c.ID = id) :
    ∃ pre c post, cs = pre ++ c :: post ∧ (∀ x ∈ pre, x.ID ≠ id) ∧ c.ID = id := by
  induction cs with
  | nil => simp at h
  | cons a rest ih =>
    by_cases ha : a.ID = id
    · exact ⟨[], a, rest, by simp, by simp, ha⟩
    · have hrest : ∃ c ∈ rest, c.ID = id := by
        obtain ⟨c, hc, hid⟩ := h
        rcases List.mem_cons.mp hc with rfl | hc
        · exact absurd hid ha
        · exact ⟨c, hc, hid⟩
      obtain ⟨pre, c, post, hsplit, hpre, hc⟩ := ih hrest
      refine ⟨a :: pre, c, post, by simp [hsplit], ?_, hc⟩
      intro x hx
      rcases List.mem_cons.mp hx with rfl | hx
      · exact ha
      · exact hpre x hx

theorem getElem?_split (pre : List Contact) (x : Contact) (post : List Contact) :
    (pre ++ x :: post)[pre.length]? = some x := by
  rw [List.getElem?_append_right (Nat.le_refl _)]
  simp

theorem getContact_split (id : String) (pre : List Contact) (c : Contact) (post : List Contact)
    (hpre : ∀ x ∈ pre, x.ID ≠ id) (hc : c.ID = id) :
    getContact (pre ++ c :: post) id = ⟨StatusOK, .contact c⟩ := by
  simp [getContact, scanFrom_split id 0 pre c post hpre hc]

theorem getContact_absent (id : String) (cs : List Contact) (h : ∀ c ∈ cs, c.ID ≠ id) :
    getContact cs id = ⟨StatusNotFound, .error "Контакт не найден"⟩ := by
  simp [getContact, (scanFrom_eq_none id 0 cs).mpr h]

theorem updateContact_split (id : String) (p : Contact) (pre : List Contact) (c : Contact)
    (post : List Contact) (hpre : ∀ x ∈ pre, x.ID ≠ id) (hc : c.ID = id) :
    updateContact (pre ++ c :: post) id (some p)
      = (pre ++ ⟨id, p.Name, p.Phone, p.Email⟩ :: post,
          ⟨StatusOK, .contact ⟨id, p.Name, p.Phone, p.Email⟩⟩) := by
  simp [updateContact, scanFrom_split id 0 pre c post hpre hc]

theorem updateContact_absent (id : String) (p : Contact) (cs : List Contact)
    (h : ∀ c ∈ cs, c.ID ≠ id) :
    updateContact cs id (some p) = (cs, ⟨StatusNotFound, .error "Контакт не найден"⟩) := by
  simp [updateContact, (scanFrom_eq_none id 0 cs).mpr h]

theorem deleteContact_split (id : String) (pre : List Contact) (c : Contact)
    (post : List Contact) (hpre : ∀ x ∈ pre, x.ID ≠ id) (hc : c.ID = id) :
    deleteContact (pre ++ c :: post) id
      = (pre ++ post, ⟨StatusOK, .message "Контакт удален"⟩) := by
  simp [deleteContact, scanFrom_split id 0 pre c post hpre hc]

theorem deleteContact_absent (id : String) (cs : List Contact) (h : ∀ c ∈ cs, c.ID ≠ id) :
    deleteContact cs id = (cs, ⟨StatusNotFound, .error "Контакт не найден"⟩) := by
  simp [deleteContact, (scanFrom_eq_none id 0 cs).mpr h]

/-! ## Get by id -/

/-- C7: for every registry and path id, Get answers NotFound exactly when no
stored contact has that id; whenever some contact has it, Get answers 200 with
the first contact in sequence order whose id equals the path id, whatever follows
that contact (later contacts with the same id included). -/
theorem getContact_spec (cs : List Contact) (id : String) :
    ((getContact cs id).status = StatusNotFound ↔ ∀ c ∈ cs, c.ID ≠ id) ∧
    ((∀ c ∈ cs, c.ID ≠ id) →
      getContact cs id = ⟨StatusNotFound, .error "Контакт не найден"⟩) ∧
    (∀ pre c post, cs = pre ++ c :: post → (∀ x ∈ pre, x.ID ≠ id) → c.ID = id →
      getContact cs id = ⟨StatusOK, .contact c⟩) ∧
    ((∃ c ∈ cs, c.ID = id) →
      ∃ pre c post, cs = pre ++ c :: post ∧ (∀ x ∈ pre, x.ID ≠ id) ∧ c.ID = id ∧
        getContact cs id = ⟨StatusOK, .contact c⟩) := by
  refine ⟨?_, getContact_absent id cs, ?_, ?_⟩
  · constructor
    · intro hstatus
      by_contra hex
      have hsome : ∃ c ∈ cs, c.ID = id := by
        by_contra hnone
        exact hex (fun c hc hid => hnone ⟨c, hc, hid⟩)
      obtain ⟨pre, c, post, hsplit, hpre, hc⟩ := exists_split id cs hsome
      rw [hsplit, getContact_split id pre c post hpre hc] at hstatus
      simp [StatusOK, StatusNotFound] at hstatus
    · intro habsent
      rw [getContact_absent id cs habsent]
  · intro pre c post hsplit hpre hc
    rw [hsplit, getContact_split id pre c post hpre hc]
  · intro hsome
    obtain ⟨pre, c, post, hsplit, hpre, hc⟩ := exists_split id cs hsome
    exact ⟨pre, c, post, hsplit, hpre, hc, by rw [hsplit, getContact_split id pre c post hpre hc]⟩

/-- Witness for C7 on a registry holding the id "2" twice: Get of "2" returns the
first of the two, Get of "9" is NotFound. -/
theorem getContact_spec_witness :
    getContact [⟨"1", "a", "", ""⟩, ⟨"2", "b", "", ""⟩, ⟨"2", "c", "", ""⟩] "2"
      = ⟨StatusOK, .contact ⟨"2", "b", "", ""⟩⟩ ∧
    (getContact [⟨"1", "a", "", ""⟩, ⟨"2", "b", "", ""⟩, ⟨"2", "c", "", ""⟩] "9").status
      = StatusNotFound :=
  ⟨(getContact_spec [⟨"1", "a", "", ""⟩, ⟨"2", "b", "", ""⟩, ⟨"2", "c", "", ""⟩] "2").2.2.1
      [⟨"1", "a", "", ""⟩] ⟨"2", "b", "", ""⟩ [⟨"2", "c", "", ""⟩] rfl (by decide) rfl,
   (getContact_spec [⟨"1", "a", "", ""⟩, ⟨"2", "b", "", ""⟩, ⟨"2", "c", "", ""⟩] "9").1.mpr
      (by decide)⟩

/-! ## Update by id -/

/-- C4: when some contact has the path id, Update answers 200 with the payload
whose id is replaced by the path id, stores that record at the index of the first
contact with that id, keeps the length, keeps the contact at every other index,
and keeps the id found at every index. -/
theorem updateContact_spec (cs : List Contact) (id : String) (p : Contact)
    (h : ∃ c ∈ cs, c.ID = id) :
    ∃ (i : Nat) (c : Contact), cs[i]? = some c ∧ c.ID = id ∧
      (∀ (j : Nat) (x : Contact), j < i → cs[j]? = some x → x.ID ≠ id) ∧
      (updateContact cs id (some p)).2
        = ⟨StatusOK, .contact ⟨id, p.Name, p.Phone, p.Email⟩⟩ ∧
      (updateContact cs id (some p)).1[i]? = some ⟨id, p.Name, p.Phone, p.Email⟩ ∧
      (updateContact cs id (some p)).1.length = cs.length ∧
      (∀ j : Nat, j ≠ i → (updateContact cs id (some p)).1[j]? = cs[j]?) ∧
      (∀ j : Nat, ((updateContact cs id (some p)).1[j]?).map Contact.ID
        = (cs[j]?).map Contact.ID) := by
  obtain ⟨pre, c, post, hsplit, hpre, hc⟩ := exists_split id cs h
  subst hsplit
  rw [updateContact_split id p pre c post hpre hc]
  refine ⟨pre.length, c, getElem?_split pre c post, hc, ?_, rfl, getElem?_split pre _ post,
    by simp, ?_, ?_⟩
  · intro j x hj hx
    rw [List.getElem?_append_left hj] at hx
    exact hpre x (List.getElem?_mem hx)
  · intro j hj
    rcases Nat.lt_or_gt_of_ne hj with hlt | hgt
    · simp [List.getElem?_append_left hlt]
    · have hle : pre.length ≤ j := Nat.le_of_lt hgt
      obtain ⟨k, hk⟩ : ∃ k, j - pre.length = k + 1 := ⟨j - pre.length - 1, by omega⟩
      simp [List.getElem?_append_right hle, hk]
  · intro j
    rcases Nat.lt_trichotomy j pre.length with hlt | heq | hgt
    · simp [List.getElem?_append_left hlt]
    · subst heq
      rw [getElem?_split, getElem?_split]
      simp [hc]
    · have hle : pre.length ≤ j := Nat.le_of_lt hgt
      obtain ⟨k, hk⟩ : ∃ k, j - pre.length = k + 1 := ⟨j - pre.length - 1, by omega⟩
      simp [List.getElem?_append_right hle, hk]

/-- Witness for C4: on the seed, a PUT to id "2" whose payload claims the id "1". -/
theorem updateContact_spec_witness :
    ∃ (i : Nat) (c : Contact), contacts[i]? = some c ∧ c.ID = "2" ∧
      (∀ (j : Nat) (x : Contact), j < i → contacts[j]? = some x → x.ID ≠ "2") ∧
      (updateContact contacts "2" (some ⟨"1", "N", "P", "E"⟩)).2
        = ⟨StatusOK, .contact ⟨"2", "N", "P", "E"⟩⟩ ∧
      (updateContact contacts "2" (some ⟨"1", "N", "P", "E"⟩)).1[i]?
        = some ⟨"2", "N", "P", "E"⟩ ∧
      (updateContact contacts "2" (some ⟨"1", "N", "P", "E"⟩)).1.length = contacts.length ∧
      (∀ j : Nat, j ≠ i →
        (updateContact contacts "2" (some ⟨"1", "N", "P", "E"⟩)).1[j]? = contacts[j]?) ∧
      (∀ j : Nat, ((updateContact contacts "2" (some ⟨"1", "N", "P", "E"⟩)).1[j]?).map Contact.ID
        = (contacts[j]?).map Contact.ID) :=
  updateContact_spec contacts "2" ⟨"1", "N", "P", "E"⟩
    ⟨⟨"2", "Петр Петров", "+79169876543", "petr@mail.ru"⟩, by decide, rfl⟩

/-! ## Delete by id -/

/-- C5: when some contact has the path id, Delete answers 200 and the new
registry is the old one without the first contact whose id equals the path id:
the contacts before it keep their index, each contact after it moves down by one
index, and the length drops by exactly one. -/
theorem deleteContact_spec (cs : List Contact) (id : String) (h : ∃ c ∈ cs, c.ID = id) :
    ∃ pre c post, cs = pre ++ c :: post ∧ (∀ x ∈ pre, x.ID ≠ id) ∧ c.ID = id ∧
      deleteContact cs id = (pre ++ post, ⟨StatusOK, .message "Контакт удален"⟩) ∧
      (∀ j : Nat, j < pre.length → (deleteContact cs id).1[j]? = cs[j]?) ∧
      (∀ j : Nat, pre.length ≤ j → (deleteContact cs id).1[j]? = cs[j + 1]?) ∧
      (deleteContact cs id).1.length + 1 = cs.length := by
  obtain ⟨pre, c, post, hsplit, hpre, hc⟩ := exists_split id cs h
  subst hsplit
  refine ⟨pre, c, post, rfl, hpre, hc, deleteContact_split id pre c post hpre hc, ?_, ?_, ?_⟩
  · intro j hj
    rw [deleteContact_split id pre c post hpre hc]
    simp [List.getElem?_append_left hj]
  · intro j hj
    rw [deleteContact_split id pre c post hpre hc]
    have hj1 : pre.length ≤ j + 1 := by omega
    have hsub : j + 1 - pre.length = (j - pre.length) + 1 := by omega
    simp [List.getElem?_append_right hj, List.getElem?_append_right hj1, hsub]
  · rw [deleteContact_split id pre c post hpre hc]
    simp
    omega

/-- Witness for C5: on the seed, DELETE of id "1". -/
theorem deleteContact_spec_witness :
    ∃ pre c post, contacts = pre ++ c :: post ∧ (∀ x ∈ pre, x.ID ≠ "1") ∧ c.ID = "1" ∧
      deleteContact contacts "1" = (pre ++ post, ⟨StatusOK, .message "Контакт удален"⟩) ∧
      (∀ j : Nat, j < pre.length → (deleteContact contacts "1").1[j]? = contacts[j]?) ∧
      (∀ j : Nat, pre.length ≤ j → (deleteContact contacts "1").1[j]? = contacts[j + 1]?) ∧
      (deleteContact contacts "1").1.length + 1 = contacts.length :=
  deleteContact_spec contacts "1"
    ⟨⟨"1", "Иван Иванов", "+79161234567", "ivan@mail.ru"⟩, by decide, rfl⟩

/-! ## Ids under Update and Delete -/

theorem updateContact_ids (cs : List Contact) (id : String) (body : Option Contact) :
    (updateContact cs id body).1.map Contact.ID = cs.map Contact.ID := by
  cases body with
  | none => rfl
  | some p =>
    by_cases h : ∃ c ∈ cs, c.ID = id
    · obtain ⟨pre, c, post, hsplit, hpre, hc⟩ := exists_split id cs h
      subst hsplit
      simp [updateContact_split id p pre c post hpre hc, hc]
    · have habsent : ∀ c ∈ cs, c.ID ≠ id := fun c hc hid => h ⟨c, hc, hid⟩
      rw [updateContact_absent id p cs habsent]

theorem deleteContact_sublist (cs : List Contact) (id : String) :
    (deleteContact cs id).1.Sublist cs := by
  by_cases h : ∃ c ∈ cs, c.ID = id
  · obtain ⟨pre, c, post, hsplit, hpre, hc⟩ := exists_split id cs h
    subst hsplit
    rw [deleteContact_split id pre c post hpre hc]
    exact List.Sublist.append (List.Sublist.refl pre) (List.sublist_cons_self c post)
  · have habsent : ∀ c ∈ cs, c.ID ≠ id := fun c hc hid => h ⟨c, hc, hid⟩
    rw [deleteContact_absent id cs habsent]

/-- C9: Update and Delete preserve id-uniqueness. For every registry whose ids
are pairwise distinct, every path id and every body (unparsable, or a payload
with any id of its own), the registry after Update and the registry after Delete
again have pairwise distinct ids. -/
theorem update_delete_keep_ids_distinct (cs : List Contact) (id : String)
    (body : Option Contact) (h : (cs.map Contact.ID).Nodup) :
    ((updateContact cs id body).1.map Contact.ID).Nodup ∧
    ((deleteContact cs id).1.map Contact.ID).Nodup := by
  constructor
  · rw [updateContact_ids]
    exact h
  · exact List.Nodup.sublist (List.Sublist.map Contact.ID (deleteContact_sublist cs id)) h

/-- Witness for C9: the seed, path id "2", a payload carrying the live id "1". -/
theorem update_delete_keep_ids_distinct_witness :
    (contacts.map Contact.ID).Nodup ∧
    ((updateContact contacts "2" (some ⟨"1", "N", "P", "E"⟩)).1.map Contact.ID).Nodup ∧
    ((deleteContact contacts "2").1.map Contact.ID).Nodup :=
  ⟨by decide,
   update_delete_keep_ids_distinct contacts "2" (some ⟨"1", "N", "P", "E"⟩) (by decide)⟩

/-! ## Failing requests -/

/-- C10: a failing request leaves the registry as it was. Update and Delete
answer NotFound with the registry unchanged when no contact has the path id;
Create and Update answer BadRequest with the registry unchanged when the body
does not bind (for Update whether or not the path id exists); whenever any
request is answered 404 or 400 the registry is unchanged; List and Get never
change it. -/
theorem failed_requests_keep_registry (cs : List Contact) (id : String) (p : Contact) :
    ((∀ c ∈ cs, c.ID ≠ id) →
      updateContact cs id (some p) = (cs, ⟨StatusNotFound, .error "Контакт не найден"⟩)) ∧
    ((∀ c ∈ cs, c.ID ≠ id) →
      deleteContact cs id = (cs, ⟨StatusNotFound, .error "Контакт не найден"⟩)) ∧
    createContact cs none = (cs, ⟨StatusBadRequest, .error "Неверные данные"⟩) ∧
    updateContact cs id none = (cs, ⟨StatusBadRequest, .error "Неверные данные"⟩) ∧
    (∀ op : Op, (step cs op).2.status = StatusNotFound ∨
        (step cs op).2.status = StatusBadRequest → (step cs op).1 = cs) ∧
    (step cs .list).1 = cs ∧
    (step cs (.get id)).1 = cs := by
  refine ⟨updateContact_absent id p cs, deleteContact_absent id cs, rfl, rfl, ?_, rfl, rfl⟩
  intro op hfail
  cases op with
  | list => rfl
  | get x => rfl
  | create body =>
    cases body with
    | none => rfl
    | some q => simp [step, createContact, StatusCreated, StatusNotFound, StatusBadRequest] at hfail
  | update x body =>
    cases body with
    | none => rfl
    | some q =>
      by_cases h : ∃ c ∈ cs, c.ID = x
      · obtain ⟨pre, c, post, hsplit, hpre, hc⟩ := exists_split x cs h
        subst hsplit
        simp [step, updateContact_split x q pre c post hpre hc, StatusOK, StatusNotFound,
          StatusBadRequest] at hfail
      · have habsent : ∀ c ∈ cs, c.ID ≠ x := fun c hc hid => h ⟨c, hc, hid⟩
        simp [step, updateContact_absent x q cs habsent]
  | delete x =>
    by_cases h : ∃ c ∈ cs, c.ID = x
    · obtain ⟨pre, c, post, hsplit, hpre, hc⟩ := exists_split x cs h
      subst hsplit
      simp [step, deleteContact_split x pre c post hpre hc, StatusOK, StatusNotFound,
        StatusBadRequest] at hfail
    · have habsent : ∀ c ∈ cs, c.ID ≠ x := fun c hc hid => h ⟨c, hc, hid⟩
      simp [step, deleteContact_absent x cs habsent]

/-- Witness for C10: on the seed, PUT and DELETE of the absent id "99" and a PUT
of the live id "1" whose body does not bind. -/
theorem failed_requests_keep_registry_witness :
    updateContact contacts "99" (some ⟨"", "N", "P", "E"⟩)
      = (contacts, ⟨StatusNotFound, .error "Контакт не найден"⟩) ∧
    deleteContact contacts "99" = (contacts, ⟨StatusNotFound, .error "Контакт не найден"⟩) ∧
    (step contacts (.update "1" none)).1 = contacts :=
  ⟨(failed_requests_keep_registry contacts "99" ⟨"", "N", "P", "E"⟩).1 (by decide),
   (failed_requests_keep_registry contacts "99" ⟨"", "N", "P", "E"⟩).2.1 (by decide),
   (failed_requests_keep_registry contacts "1" ⟨"", "N", "P", "E"⟩).2.2.2.2.1
      (.update "1" none) (Or.inr rfl)⟩

/-! ## The seed scenario -/

/-- C8: on the seed registry, GET of "1" answers 200 with Ivan's record, DELETE
of "1" answers 200 with the confirmation, the next GET of "1" answers 404, and
the list then holds Petr's record only. -/
theorem seed_scenario :
    responses contacts [.get "1", .delete "1", .get "1", .list]
      = [ ⟨200, .contact ⟨"1", "Иван Иванов", "+79161234567", "ivan@mail.ru"⟩⟩,
          ⟨200, .message "Контакт удален"⟩,
          ⟨404, .error "Контакт не найден"⟩,
          ⟨200, .contactList [⟨"2", "Петр Петров", "+79169876543", "petr@mail.ru"⟩]⟩ ] := by
  decide

/-! ## Create -/

theorem toNat_ofNat_of_valid (k : Nat) (h : k < 55296 ∨ (57343 < k ∧ k < 1114112)) :
    (Char.ofNat k).toNat = k := by
  have hv : k.isValidChar := h
  simp [Char.ofNat, hv, Char.ofNatAux, Char.toNat, UInt32.toNat]

theorem zero_digit_code : ('0'.toNat : Int) = 48 := by decide

theorem runeOfInt_small (n : Nat) (h : n + 1 + 48 < 2147483648) :
    runeOfInt ((n : Int) + 1 + ('0'.toNat : Int)) = ((n + 1 + 48 : Nat) : Int) := by
  rw [zero_digit_code]
  unfold runeOfInt
  omega

theorem stringOfRune_valid (n : Nat)
    (h : n + 1 + 48 < 55296 ∨ (57343 < n + 1 + 48 ∧ n + 1 + 48 ≤ 1114111)) :
    stringOfRune (runeOfInt ((n : Int) + 1 + ('0'.toNat : Int)))
      = String.singleton (Char.ofNat (n + 1 + 48)) := by
  have hv : validRune ((n + 1 + 48 : Nat) : Int) = true := by
    simp [validRune]
    omega
  rw [runeOfInt_small n (by omega), stringOfRune, if_pos hv, Int.toNat_ofNat]

theorem stringOfRune_invalid (n : Nat)
    (h : (55296 ≤ n + 1 + 48 ∧ n + 1 + 48 ≤ 57343) ∨
      (1114111 < n + 1 + 48 ∧ n + 1 + 48 < 2147483648)) :
    stringOfRune (runeOfInt ((n : Int) + 1 + ('0'.toNat : Int)))
      = String.singleton runeError := by
  have hv : ¬ validRune ((n + 1 + 48 : Nat) : Int) = true := by
    simp [validRune]
    omega
  rw [runeOfInt_small n (by omega), stringOfRune, if_neg hv]

theorem createContact_some (cs : List Contact) (p : Contact) :
    createContact cs (some p)
      = (cs ++ [⟨stringOfRune (runeOfInt ((cs.length : Int) + 1 + ('0'.toNat : Int))),
            p.Name, p.Phone, p.Email⟩],
          ⟨StatusCreated,
            .contact ⟨stringOfRune (runeOfInt ((cs.length : Int) + 1 + ('0'.toNat : Int))),
              p.Name, p.Phone, p.Email⟩⟩) := rfl

theorem length_run_creates (p : Contact) (k : Nat) (cs : List Contact) :
    (run cs (List.replicate k (.create (some p)))).length = cs.length + k := by
  induction k generalizing cs with
  | zero => rfl
  | succ k ih =>
    rw [List.replicate_succ, run, ih]
    simp [step, createContact_some]
    omega

/-- C6, as amended: for every registry of n contacts and every parsable payload,
Create ignores the id of the payload, appends one record with the payload's name,
phone and email at the end, leaves the n existing contacts in place, and answers
201 with that record. The id of the record is the one-character string whose code
point is the code point of the digit zero plus n+1 whenever that number is a
Unicode scalar value, and the one-character string U+FFFD when that number is a
surrogate or lies above 0x10FFFF (below 2^31). -/
theorem createContact_spec (cs : List Contact) (p : Contact) :
    ∃ r : Contact,
      createContact cs (some p) = (cs ++ [r], ⟨StatusCreated, .contact r⟩) ∧
      r.Name = p.Name ∧ r.Phone = p.Phone ∧ r.Email = p.Email ∧
      (∀ x : String,
        createContact cs (some ⟨x, p.Name, p.Phone, p.Email⟩) = createContact cs (some p)) ∧
      (∀ j : Nat, j < cs.length → (createContact cs (some p)).1[j]? = cs[j]?) ∧
      (createContact cs (some p)).1[cs.length]? = some r ∧
      (createContact cs (some p)).1.length = cs.length + 1 ∧
      (cs.length + 1 + 48 < 55296 ∨
          (57343 < cs.length + 1 + 48 ∧ cs.length + 1 + 48 ≤ 1114111) →
        r.ID.data.map Char.toNat = [cs.length + 1 + '0'.toNat]) ∧
      ((55296 ≤ cs.length + 1 + 48 ∧ cs.length + 1 + 48 ≤ 57343) ∨
          (1114111 < cs.length + 1 + 48 ∧ cs.length + 1 + 48 < 2147483648) →
        r.ID.data.map Char.toNat = [65533]) := by
  refine ⟨⟨stringOfRune (runeOfInt ((cs.length : Int) + 1 + ('0'.toNat : Int))),
      p.Name, p.Phone, p.Email⟩, createContact_some cs p, rfl, rfl, rfl, ?_, ?_, ?_, ?_, ?_, ?_⟩
  · intro x
    rfl
  · intro j hj
    rw [createContact_some]
    exact List.getElem?_append_left hj
  · rw [createContact_some]
    simp
  · rw [createContact_some]
    simp
  · intro hvalid
    have hk : cs.length + 1 + 48 < 55296 ∨ (57343 < cs.length + 1 + 48 ∧
        cs.length + 1 + 48 < 1114112) := by omega
    have hzero : '0'.toNat = 48 := by decide
    rw [stringOfRune_valid cs.length hvalid, hzero]
    show List.map Char.toNat (String.singleton (Char.ofNat (cs.length + 1 + 48))).data
      = [cs.length + 1 + 48]
    rw [← toNat_ofNat_of_valid (cs.length + 1 + 48) hk, Char.ofNat_toNat]
    rfl
  · intro hinvalid
    rw [stringOfRune_invalid cs.length hinvalid]
    show List.map Char.toNat (String.singleton runeError).data = [65533]
    decide

/-- Witness for C6 as amended: on the seed (n = 2, and 51 is a scalar value) a
POST whose payload carries the id "1" appends a record whose id has the single
code point 2 + 1 + 48. -/
theorem createContact_spec_witness :
    ∃ r : Contact,
      createContact contacts (some ⟨"1", "A", "1", "a@x.com"⟩)
        = (contacts ++ [r], ⟨StatusCreated, .contact r⟩) ∧
      r.ID.data.map Char.toNat = [contacts.length + 1 + '0'.toNat] := by
  obtain ⟨r, hcreate, _, _, _, _, _, _, _, hid, _⟩ :=
    createContact_spec contacts ⟨"1", "A", "1", "a@x.com"⟩
  exact ⟨r, hcreate, hid (by decide)⟩

/-- C6, counterexample: after 55245 successful POSTs on the seed the registry
holds 55247 contacts; the next POST is answered with the id U+FFFD (code point
65533), not with a character of code point 48 + 55247 + 1 = 55296, which is a
surrogate. -/
theorem createContact_at_surrogate_count :
    (run contacts (List.replicate 55245 (.create (some ⟨"", "A", "1", "a@x.com"⟩)))).length
      = 55247 ∧
    (createContact
        (run contacts (List.replicate 55245 (.create (some ⟨"", "A", "1", "a@x.com"⟩))))
        (some ⟨"", "A", "1", "a@x.com"⟩)).2
      = ⟨StatusCreated, .contact ⟨String.singleton (Char.ofNat 65533), "A", "1", "a@x.com"⟩⟩ ∧
    (String.singleton (Char.ofNat 65533)).data.map Char.toNat ≠ [55247 + 1 + '0'.toNat] := by
  have hlen := length_run_creates ⟨"", "A", "1", "a@x.com"⟩ 55245 contacts
  refine ⟨hlen, ?_, by decide⟩
  rw [createContact_some, hlen]
  decide

/-! ## Id collisions after a Delete

`createContact` derives the new id from the current length alone, so once a
Delete has shortened the sequence the next Create can hand out an id that a
stored contact still carries. The three evaluations below start from the seed. -/

/-- C1, evaluation at the failing input: from the seed, DELETE of "1" followed by
a POST leaves two stored contacts that both carry the id "2". -/
theorem seed_delete_create_duplicates_id :
    run contacts [.delete "1", .create (some ⟨"", "A", "1", "a@x.com"⟩)]
      = [ ⟨"2", "Петр Петров", "+79169876543", "petr@mail.ru"⟩,
          ⟨"2", "A", "1", "a@x.com"⟩ ] ∧
    Reachable [ ⟨"2", "Петр Петров", "+79169876543", "petr@mail.ru"⟩,
          ⟨"2", "A", "1", "a@x.com"⟩ ] ∧
    ¬ ((run contacts [.delete "1", .create (some ⟨"", "A", "1", "a@x.com"⟩)]).map
        Contact.ID).Nodup := by
  refine ⟨by decide, ⟨[.delete "1", .create (some ⟨"", "A", "1", "a@x.com"⟩)], by decide⟩,
    by decide⟩

/-- C2, evaluation at the failing input: from the seed, after DELETE of "1" and a
POST, a DELETE of "2" answers 200, the following GET of "2" answers 200 with the
record just created, and the repeated DELETE of "2" answers 200 again. -/
theorem seed_delete_succeeds_twice :
    responses contacts
        [.delete "1", .create (some ⟨"", "A", "1", "a@x.com"⟩), .delete "2", .get "2",
          .delete "2"]
      = [ ⟨200, .message "Контакт удален"⟩,
          ⟨201, .contact ⟨"2", "A", "1", "a@x.com"⟩⟩,
          ⟨200, .message "Контакт удален"⟩,
          ⟨200, .contact ⟨"2", "A", "1", "a@x.com"⟩⟩,
          ⟨200, .message "Контакт удален"⟩ ] := by
  decide

/-- C3, evaluation at the failing input: from the seed, after DELETE of "1", a
POST is answered 201 with a record of id "2", and the GET of "2" issued right
after it answers with Petr's record, not with the record just created. -/
theorem seed_create_then_get_other_record :
    responses contacts [.delete "1", .create (some ⟨"", "A", "1", "a@x.com"⟩), .get "2"]
      = [ ⟨200, .message "Контакт удален"⟩,
          ⟨201, .contact ⟨"2", "A", "1", "a@x.com"⟩⟩,
          ⟨200, .contact ⟨"2", "Петр Петров", "+79169876543", "petr@mail.ru"⟩⟩ ] := by
  decide

/-! ## What holds while ids are distinct -/

/-- The scenario of the spec on the untouched seed: the POST is answered 201 with
the id "3", and the GET of "3" returns the same record. -/
theorem seed_create_then_get :
    responses contacts [.create (some ⟨"", "A", "1", "a@x.com"⟩), .get "3"]
      = [ ⟨201, .contact ⟨"3", "A", "1", "a@x.com"⟩⟩,
          ⟨200, .contact ⟨"3", "A", "1", "a@x.com"⟩⟩ ] := by
  decide

/-- When no stored contact carries the id that Create assigns, the Get of that
id issued right after the Create returns the created record. -/
theorem create_then_get_of_fresh (cs : List Contact) (p r : Contact)
    (hr : (createContact cs (some p)).2 = ⟨StatusCreated, .contact r⟩)
    (hfresh : ∀ c ∈ cs, c.ID ≠ r.ID) :
    getContact (createContact cs (some p)).1 r.ID = ⟨StatusOK, .contact r⟩ := by
  rw [createContact_some] at hr
  have hbody := congrArg Response.body hr
  simp only [Body.contact.injEq] at hbody
  rw [createContact_some, hbody]
  exact getContact_split r.ID cs r [] hfresh rfl

/-- When the stored ids are pairwise distinct and some contact has the id, a
successful Delete leaves no contact with that id: the following Get and the
repeated Delete both answer NotFound. -/
theorem delete_then_absent_of_nodup (cs : List Contact) (id : String)
    (hnodup : (cs.map Contact.ID).Nodup) (h : ∃ c ∈ cs, c.ID = id) :
    (deleteContact cs id).2 = ⟨StatusOK, .message "Контакт удален"⟩ ∧
    getContact (deleteContact cs id).1 id = ⟨StatusNotFound, .error "Контакт не найден"⟩ ∧
    deleteContact (deleteContact cs id).1 id
      = ((deleteContact cs id).1, ⟨StatusNotFound, .error "Контакт не найден"⟩) := by
  obtain ⟨pre, c, post, hsplit, hpre, hc⟩ := exists_split id cs h
  subst hsplit
  rw [deleteContact_split id pre c post hpre hc]
  have hpost : ∀ x ∈ post, x.ID ≠ id := by
    intro x hx hid
    rw [List.map_append, List.map_cons, List.nodup_append] at hnodup
    have hcons := List.nodup_cons.mp hnodup.2.1
    exact hcons.1 (by rw [hc, ← hid]; exact List.mem_map_of_mem Contact.ID hx)
  have habsent : ∀ x ∈ pre ++ post, x.ID ≠ id := by
    intro x hx
    rcases List.mem_append.mp hx with hx | hx
    · exact hpre x hx
    · exact hpost x hx
  exact ⟨rfl, getContact_absent id _ habsent, deleteContact_absent id _ habsent⟩

end Iwa5
